import Mathlib

/-!
# Verification of the amp-acp protocol adapter

Shallow embedding of the adapter's core components:
* the event-to-notification translator (`toAcpNotifications` in `src/to-acp.js`),
  including the tool-call identity mapper (`getUniqueToolCallId`, `findAcpToolCallId`),
  the status-transition validator (`validateStatusTransition`) and the nested-tool
  aggregator (`NestedToolTracker`);
* the circuit breaker (`CircuitBreaker`);
* the session orchestrator fragments relevant to prompt start, session cleanup and
  cancellation (`prompt`, `_cleanupSession`, `cancel` in `src/server.js`);
* the display helpers from `src/config.js` (`getToolTitle`, `getToolKind`,
  `getToolLocations`, `getInlineToolDescription`, `isFileEditTool`).

JavaScript `Map`s are modelled as insertion-ordered association lists over `String`
keys; JavaScript numbers are modelled as `Nat` where every subtraction is guarded by
the source so truncation cannot diverge from the source's signed arithmetic, and as
`Int` where a negative intermediate value is reachable.  `randomUUID()` draws are
modelled as an explicit supply of suffix strings; the generation loop returns `none`
when the supply is exhausted (the source would keep drawing).
-/

/-! ## Association-list model of JavaScript `Map` -/

/-- `Map.get`: first binding of the key, if any. -/
def mapGet {α : Type} (m : List (String × α)) (k : String) : Option α :=
  (m.find? (fun p => p.1 == k)).map (·.2)

/-- `Map.has`. -/
def mapHas {α : Type} (m : List (String × α)) (k : String) : Bool :=
  (mapGet m k).isSome

/-- `Map.set`: overwrite in place if present (JS keeps insertion order), else append. -/
def mapSet {α : Type} (m : List (String × α)) (k : String) (v : α) : List (String × α) :=
  match m with
  | [] => [(k, v)]
  | (k', v') :: rest => if k' == k then (k, v) :: rest else (k', v') :: mapSet rest k v

/-- `Map.delete`. -/
def mapDel {α : Type} (m : List (String × α)) (k : String) : List (String × α) :=
  m.filter (fun p => !(p.1 == k))

theorem mapGet_mapSet_self {α : Type} (m : List (String × α)) (k : String) (v : α) :
    mapGet (mapSet m k v) k = some v := by
  induction m with
  | nil => simp [mapGet, mapSet]
  | cons hd tl ih =>
    by_cases h : hd.1 = k
    · simp [mapGet, mapSet, h]
    · simpa [mapGet, mapSet, h, List.find?] using ih

/-- JS `arr.slice(-n)` for `n > 0`: the last `n` elements. -/
def takeLast {α : Type} (n : Nat) (l : List α) : List α :=
  l.drop (l.length - n)

theorem takeLast_length {α : Type} (n : Nat) (l : List α) (h : n ≤ l.length) :
    (takeLast n l).length = n := by
  simp [takeLast]
  omega

/-! ## `src/config.js`: display helpers

JS truthiness on optional strings: `undefined` and `""` are both falsy, so an
empty string behaves like an absent field. -/

/-- Collapse a JS-falsy string (empty) to `none`. -/
def truthy (o : Option String) : Option String :=
  match o with
  | none => none
  | some s => if s == "" then none else some s

theorem truthy_eq_some (o : Option String) (v : String) (h : truthy o = some v) :
    o = some v ∧ v ≠ "" := by
  match o with
  | none => exact absurd h (by simp [truthy])
  | some s =>
    have h' : (if s == "" then none else some s : Option String) = some v := h
    by_cases hs : s = ""
    · rw [if_pos (by simp [hs])] at h'
      exact absurd h' (by simp)
    · rw [if_neg (by simpa using hs)] at h'
      cases h'
      exact ⟨rfl, hs⟩

/-- `truncate(str, maxLen)` from `src/config.js`. -/
def truncate (str : String) (maxLen : Nat) : String :=
  if str.length ≤ maxLen then str else str.take (maxLen - 1) ++ "…"

/-- JS `str.split(sep)` for a one-character separator, by structural recursion on the
character list (evaluates by kernel reduction, unlike `String.splitOn`). -/
def splitCharAux (sep : Char) : List Char → List Char → List String
  | [], acc => [String.mk acc.reverse]
  | c :: cs, acc =>
    if c == sep then String.mk acc.reverse :: splitCharAux sep cs []
    else splitCharAux sep cs (c :: acc)

/-- JS `str.split(sep)` for a one-character separator. -/
def splitChar (sep : Char) (s : String) : List String :=
  splitCharAux sep s.data []

/-- `shortenPath(path)` from `src/config.js`: keep the last two components of long paths. -/
def shortenPath (p : String) : String :=
  let parts := (splitChar (Char.ofNat 47) p).filter (fun s => !(s == ""))
  if parts.length ≤ 3 then String.intercalate "/" parts
  else "…/" ++ String.intercalate "/" (takeLast 2 parts)

/-- The duck-typed `input` payload of a tool call: the optional fields the adapter reads. -/
structure ToolInput where
  path : Option String
  content : Option String
  old_str : Option String
  new_str : Option String
  pattern : Option String
  filePattern : Option String
  query : Option String
  cmd : Option String
  description : Option String
  task : Option String
  url : Option String
  cwd : Option String
  read_range : Option (List Nat)
deriving DecidableEq, Repr

/-- The all-absent tool input. -/
def ToolInput.empty : ToolInput :=
  ⟨none, none, none, none, none, none, none, none, none, none, none, none, none⟩

/-- `isFileEditTool(toolName)` from `src/config.js`. -/
def isFileEditTool (toolName : String) : Bool :=
  toolName == "edit_file" || toolName == "create_file"

/-- `toolKindMap[name]` from `src/config.js` (absent keys give `none`). -/
def toolKindMap (name : String) : Option String :=
  match name with
  | "Read" => some "read"
  | "Grep" => some "search"
  | "glob" => some "search"
  | "finder" => some "search"
  | "web_search" => some "fetch"
  | "read_web_page" => some "fetch"
  | "edit_file" => some "edit"
  | "create_file" => some "edit"
  | "undo_edit" => some "edit"
  | "format_file" => some "edit"
  | "delete_file" => some "delete"
  | "move_file" => some "move"
  | "Bash" => some "execute"
  | "Task" => some "execute"
  | "TaskOutput" => some "read"
  | "oracle" => some "think"
  | "todo_read" => some "search"
  | "todo_write" => some "edit"
  | "read_plan" => some "search"
  | "edit_plan" => some "edit"
  | _ => none

/-- `getToolKind(name)` from `src/config.js`. -/
def getToolKind (name : String) : String :=
  if name == "" then "other"
  else match toolKindMap name with
  | some k => k
  | none => if name.startsWith "mcp__" then "fetch" else "other"

/-- `toolTitleFormatters[name]` applied to `input`: `some t` when a formatter exists and
returns a truthy title, `none` otherwise (missing formatter or falsy result). -/
def titleFromFormatter (name : String) (input : ToolInput) : Option String :=
  match name with
  | "Read" => (truthy input.path).map (fun p => "Read " ++ shortenPath p)
  | "Grep" => (truthy input.pattern).map (fun p => "Grep \"" ++ truncate p 30 ++ "\"")
  | "glob" => (truthy input.filePattern).map (fun p => "glob " ++ truncate p 40)
  | "finder" => (truthy input.query).map (fun q => "finder: " ++ truncate q 40)
  | "Bash" => (truthy input.cmd).map (fun c => "Bash: " ++ truncate c 50)
  | "edit_file" => (truthy input.path).map (fun p => "Edit " ++ shortenPath p)
  | "create_file" => (truthy input.path).map (fun p => "Create " ++ shortenPath p)
  | "Task" =>
    some (match truthy input.description with
      | some d => truncate d 50
      | none => "Task")
  | "TaskOutput" => some "TaskOutput"
  | "oracle" =>
    some (match truthy input.task with
      | some t => truncate t 50
      | none => "Oracle")
  | "todo_write" => some "Update Plan"
  | "todo_read" => some "Read Plan"
  | "web_search" => (truthy input.query).map (fun q => "Search: " ++ truncate q 40)
  | "read_web_page" => (truthy input.url).map (fun u => "Fetch " ++ truncate u 50)
  | _ => none

/-- `name.replace('mcp__','').split('__').join('.')` under the `startsWith('mcp__')` guard. -/
def mcpDisplayName (name : String) : String :=
  String.intercalate "." ((name.drop 5).splitOn "__")

/-- `getToolTitle(name, parentToolUseId, input)` from `src/config.js`. -/
def getToolTitle (name : String) (parentToolUseId : Option String) (input : ToolInput) :
    String :=
  let pfx := if (truthy parentToolUseId).isSome then "[Subagent] " else ""
  if name == "" then pfx ++ "Unknown"
  else match titleFromFormatter name input with
  | some t => pfx ++ t
  | none =>
    if name.startsWith "mcp__" then pfx ++ "MCP: " ++ mcpDisplayName name
    else pfx ++ name

/-- An entry of the ACP `locations` array. -/
structure ToolLocation where
  path : String
  line : Option Nat
deriving DecidableEq, Repr

/-- `getToolLocations(name, input)` from `src/config.js`.
`input.read_range?.[0]` is used under a truthiness check, so a leading `0` is dropped. -/
def getToolLocations (name : String) (input : ToolInput) : List ToolLocation :=
  match name with
  | "Read" | "edit_file" | "create_file" | "undo_edit" =>
    match truthy input.path with
    | some p =>
      let line := match input.read_range with
        | some (n :: _) => if n == 0 then none else some n
        | _ => none
      [⟨p, line⟩]
    | none => []
  | "Grep" =>
    match truthy input.path with
    | some p => [⟨p, none⟩]
    | none => []
  | "Bash" =>
    match truthy input.cwd with
    | some c => [⟨c, none⟩]
    | none => []
  | _ => []

/-- `inlineDescriptionFormatters[name]` with its fallbacks, i.e. the per-tool part of
`getInlineToolDescription` from `src/config.js`. -/
def inlineDescriptionFormatter (name : String) (input : ToolInput) : Option String :=
  match name with
  | "Read" =>
    some (match truthy input.path with
      | some p => "Read " ++ shortenPath p
      | none => "Read")
  | "Grep" =>
    some (match truthy input.pattern with
      | some p => "Grep \"" ++ truncate p 25 ++ "\""
      | none => "Grep")
  | "glob" =>
    some (match truthy input.filePattern with
      | some p => "glob " ++ truncate p 30
      | none => "glob")
  | "finder" =>
    some (match truthy input.query with
      | some q => "finder: " ++ truncate q 30
      | none => "finder")
  | "Bash" =>
    some (match truthy input.cmd with
      | some c => "Bash: " ++ truncate c 40
      | none => "Bash")
  | "edit_file" =>
    some (match truthy input.path with
      | some p => "Edit " ++ shortenPath p
      | none => "edit_file")
  | "create_file" =>
    some (match truthy input.path with
      | some p => "Create " ++ shortenPath p
      | none => "create_file")
  | "Task" =>
    some (match truthy input.description with
      | some d => truncate d 40
      | none => "Task")
  | "TaskOutput" => some "TaskOutput"
  | "oracle" =>
    some (match truthy input.task with
      | some t => truncate t 40
      | none => "Oracle")
  | "web_search" =>
    some (match truthy input.query with
      | some q => "Search: " ++ truncate q 30
      | none => "web_search")
  | "read_web_page" =>
    some (match truthy input.url with
      | some u => "Fetch " ++ truncate u 40
      | none => "read_web_page")
  | _ => none

/-- `getInlineToolDescription(name, input)` from `src/config.js`. -/
def getInlineToolDescription (name : String) (input : ToolInput) : String :=
  match inlineDescriptionFormatter name input with
  | some d => d
  | none =>
    if name.startsWith "mcp__" then "MCP: " ++ mcpDisplayName name
    else if name == "" then "Unknown"
    else name

/-! ## Circuit breaker (`CircuitBreaker` in the spawn-protection module)

`Date.now()` is passed in explicitly as a `Nat` timestamp.  `lastFailureTime`
starts as `null`; the `open`-state comparison `now - this.lastFailureTime` is
performed over `Int` with `null` read as `0` (JS numeric coercion of `null`). -/

inductive BreakerState where
  | closed
  | opened
  | halfOpen
deriving DecidableEq, Repr

structure CircuitBreaker where
  failureThreshold : Nat
  resetTimeMs : Nat
  halfOpenMaxAttempts : Nat
  state : BreakerState
  failureCount : Nat
  lastFailureTime : Option Nat
  halfOpenAttempts : Nat
deriving DecidableEq, Repr

/-- The constructor: `new CircuitBreaker({failureThreshold, resetTimeMs, halfOpenMaxAttempts})`. -/
def CircuitBreaker.mk0 (failureThreshold resetTimeMs halfOpenMaxAttempts : Nat) :
    CircuitBreaker :=
  ⟨failureThreshold, resetTimeMs, halfOpenMaxAttempts, .closed, 0, none, 0⟩

/-- `isAllowed()`: returns the boolean and the (possibly transitioned) breaker. -/
def CircuitBreaker.isAllowed (b : CircuitBreaker) (now : Nat) : Bool × CircuitBreaker :=
  match b.state with
  | .closed => (true, b)
  | .opened =>
    if (now : Int) - (b.lastFailureTime.getD 0 : Nat) ≥ (b.resetTimeMs : Int) then
      (true, { b with state := .halfOpen, halfOpenAttempts := 0 })
    else (false, b)
  | .halfOpen => (decide (b.halfOpenAttempts < b.halfOpenMaxAttempts), b)

/-- `recordSuccess()`. -/
def CircuitBreaker.recordSuccess (b : CircuitBreaker) : CircuitBreaker :=
  match b.state with
  | .halfOpen => { b with state := .closed, failureCount := 0, halfOpenAttempts := 0 }
  | .closed => if b.failureCount > 0 then { b with failureCount := 0 } else b
  | .opened => b

/-- `recordFailure()`. -/
def CircuitBreaker.recordFailure (b : CircuitBreaker) (now : Nat) : CircuitBreaker :=
  let b1 := { b with lastFailureTime := some now }
  match b.state with
  | .halfOpen =>
    let attempts := b.halfOpenAttempts + 1
    if attempts ≥ b.halfOpenMaxAttempts then
      { b1 with halfOpenAttempts := attempts, state := .opened }
    else { b1 with halfOpenAttempts := attempts }
  | _ =>
    let count := b.failureCount + 1
    if count ≥ b.failureThreshold then
      { b1 with failureCount := count, state := .opened }
    else { b1 with failureCount := count }

/-- Fold `recordFailure` over a list of timestamps. -/
def CircuitBreaker.applyFailures (b : CircuitBreaker) (times : List Nat) : CircuitBreaker :=
  times.foldl (fun acc t => acc.recordFailure t) b

/-! ## Event and notification data model (`src/to-acp.js`)

Backend stream-JSON events (`system`/`user`/`assistant`/`result`) and the ACP
`sessionUpdate` notifications they translate to. -/

/-- Tool-call status strings used by the adapter. -/
inductive Status where
  | inProgress
  | completed
  | failed
deriving DecidableEq, Repr

/-- A block of a `tool_result`'s `content`: a `text` block or a pass-through block
of another type (tagged by its `type` string). -/
inductive ResultBlock where
  | text (t : String)
  | other (tag : String)
deriving DecidableEq, Repr

/-- A `tool_result`'s `content` field: an array of blocks, a plain string, or absent. -/
inductive ResultContent where
  | blocks (bs : List ResultBlock)
  | str (s : String)
  | absent
deriving DecidableEq, Repr

/-- A content block of an `assistant` or `user` message. -/
inductive ContentChunk where
  | text (t : String)
  | toolUse (id : String) (name : String) (input : ToolInput)
  | toolResult (toolUseId : String) (isError : Bool) (content : ResultContent)
  | thinking (t : String)
deriving DecidableEq, Repr

/-- The `usage.cost` object: an `amount` surviving `getNumericValue` and a `currency`
surviving the `typeof === 'string'` check (its later use is a truthiness test, so an
empty string still yields no cost). -/
structure CostObj where
  amount : Option ℚ
  currency : Option String
deriving DecidableEq, Repr

/-- The normalized numeric fields of a `result` event's `usage` object (only finite
numbers survive `getNumericValue`'s `typeof` check, so each alias is `Option ℚ`). -/
structure Usage where
  size : Option ℚ
  context_size : Option ℚ
  window_size : Option ℚ
  used : Option ℚ
  context_used : Option ℚ
  used_tokens : Option ℚ
  total_tokens : Option ℚ
  totalTokens : Option ℚ
  input_tokens : Option ℚ
  inputTokens : Option ℚ
  output_tokens : Option ℚ
  outputTokens : Option ℚ
  thought_tokens : Option ℚ
  thoughtTokens : Option ℚ
  cached_read_input_tokens : Option ℚ
  cachedReadTokens : Option ℚ
  cached_write_input_tokens : Option ℚ
  cachedWriteTokens : Option ℚ
  cost : Option CostObj
  cost_usd : Option ℚ
  costUsd : Option ℚ
deriving DecidableEq, Repr

/-- A backend stream-JSON event, at the granularity the translator inspects. -/
inductive Msg where
  | system (subtype : Option String) (toolCount : Option Nat)
      (mcpServers : Option (List (String × String)))
  | user (content : Option (List ContentChunk)) (parentToolUseId : Option String)
  | assistant (content : Option (List ContentChunk)) (parentToolUseId : Option String)
  | result (subtype : Option String) (error : Option String) (usage : Option Usage)
      (resultUsage : Option Usage)
  | unknown
deriving DecidableEq, Repr

/-- An element of an ACP content array. -/
inductive ContentItem where
  | text (t : String)
  | passthrough (tag : String)
  | diff (path : String) (oldText : Option String) (newText : String)
deriving DecidableEq, Repr

/-- The `update` payload of a `sessionUpdate` notification. -/
inductive Update where
  | agentMessageChunk (text : String)
  | agentThoughtChunk (text : String)
  | toolCall (toolCallId : String) (rawInput : ToolInput) (status : Status)
      (title : String) (kind : String) (content : List ContentItem)
      (locations : List ToolLocation) (meta : Option String)
  | toolCallUpdate (toolCallId : String) (status : Option Status)
      (content : List ContentItem)
  | usageUpdate (size used : ℚ) (cost : Option (ℚ × String))
deriving DecidableEq, Repr

/-- One ACP `sessionUpdate` notification. -/
structure Notification where
  sessionId : String
  update : Update
deriving DecidableEq, Repr

/-- The nested-tool display policy (`config.nestedToolMode`). -/
inductive NestedMode where
  | flat
  | inline
  | separate
deriving DecidableEq, Repr

/-! ## `NestedToolTracker` (`src/to-acp.js`) -/

/-- A child's status inside the tracker (`'running' | 'completed' | 'failed'`). -/
inductive ChildStatus where
  | running
  | completed
  | failed
deriving DecidableEq, Repr

/-- The per-child record in `childTools`. -/
structure ChildInfo where
  parentToolUseId : String
  name : String
  input : ToolInput
  status : ChildStatus
  index : Nat
deriving DecidableEq, Repr

/-- An element of a parent's `children` array. -/
structure ChildEntry where
  id : String
  name : String
  input : ToolInput
  status : ChildStatus
deriving DecidableEq, Repr

/-- The per-parent record in `parentStats`. -/
structure ParentStats where
  total : Nat
  completed : Nat
  failed : Nat
  children : List ChildEntry
deriving DecidableEq, Repr

structure NestedToolTracker where
  childTools : List (String × ChildInfo)
  parentStats : List (String × ParentStats)
  maxVisibleCompleted : Nat
  maxVisibleFailed : Nat
deriving DecidableEq, Repr

/-- The constructor: empty maps, caps 3 and 5. -/
def NestedToolTracker.new : NestedToolTracker :=
  ⟨[], [], 3, 5⟩

/-- `registerChild(childId, parentId, name, input)`. -/
def NestedToolTracker.registerChild (t : NestedToolTracker) (childId parentId name : String)
    (input : ToolInput) : NestedToolTracker :=
  let stats := (mapGet t.parentStats parentId).getD ⟨0, 0, 0, []⟩
  let index := stats.total
  let stats' := { stats with
    total := stats.total + 1,
    children := stats.children ++ [⟨childId, name, input, .running⟩] }
  { t with
    parentStats := mapSet t.parentStats parentId stats',
    childTools := mapSet t.childTools childId ⟨parentId, name, input, .running, index⟩ }

/-- `children.find(c => c.id === childId)` followed by a status write: update the
first entry with the given id. -/
def updateChildEntryStatus : List ChildEntry → String → ChildStatus → List ChildEntry
  | [], _, _ => []
  | c :: rest, cid, st =>
    if c.id == cid then { c with status := st } :: rest
    else c :: updateChildEntryStatus rest cid st

/-- `completeChild(childId, isError)`: returns the updated child info (or `none` for an
unknown child) together with the updated tracker. -/
def NestedToolTracker.completeChild (t : NestedToolTracker) (childId : String)
    (isError : Bool) : Option ChildInfo × NestedToolTracker :=
  match mapGet t.childTools childId with
  | none => (none, t)
  | some child =>
    let newStatus := if isError then ChildStatus.failed else ChildStatus.completed
    let child' := { child with status := newStatus }
    let t' := { t with childTools := mapSet t.childTools childId child' }
    match mapGet t'.parentStats child.parentToolUseId with
    | none => (some child', t')
    | some stats =>
      let stats' := { stats with
        completed := if isError then stats.completed else stats.completed + 1,
        failed := if isError then stats.failed + 1 else stats.failed,
        children := updateChildEntryStatus stats.children childId newStatus }
      (some child', { t' with parentStats := mapSet t'.parentStats child.parentToolUseId stats' })

/-- `isChildTool(childId)`. -/
def NestedToolTracker.isChildTool (t : NestedToolTracker) (childId : String) : Bool :=
  mapHas t.childTools childId

/-- The `◐` line of a running child. -/
def runningLine (c : ChildEntry) : String :=
  "◐ " ++ getInlineToolDescription c.name c.input

/-- The `✗` line of a failed child. -/
def failedLine (c : ChildEntry) : String :=
  "✗ " ++ getInlineToolDescription c.name c.input

/-- The `✓` line of a completed child. -/
def completedLine (c : ChildEntry) : String :=
  "✓ " ++ getInlineToolDescription c.name c.input

/-- The collapse marker inserted between the first and last failed children. -/
def failedMarker (hidden : Nat) : String :=
  "✗ ... " ++ toString hidden ++ " more failed"

/-- The collapse marker preceding the most recent completed children. -/
def completedMarker (hidden : Nat) : String :=
  "✓ ... " ++ toString hidden ++ " more completed"

/-- The failed-children section of `getContentArray`: "first 2 + last N" around a
collapse marker once the cap is exceeded. -/
def failedBlock (maxVisibleFailed : Nat) (failedChildren : List ChildEntry) : List String :=
  if failedChildren.length > maxVisibleFailed then
    let firstCount := min 2 maxVisibleFailed
    let lastCount := maxVisibleFailed - firstCount
    let hiddenFailed := failedChildren.length - maxVisibleFailed
    (failedChildren.take firstCount).map failedLine
      ++ [failedMarker hiddenFailed]
      ++ (if lastCount > 0 then (takeLast lastCount failedChildren).map failedLine else [])
  else failedChildren.map failedLine

/-- The completed-children section of `getContentArray`: a collapse marker (when the
cap is exceeded) followed by the most recent `maxVisibleCompleted` children.
`completed.slice(-maxVisibleCompleted)` is `takeLast` since the cap is positive. -/
def completedBlock (maxVisibleCompleted : Nat) (completedChildren : List ChildEntry) :
    List String :=
  let hiddenCompleted := completedChildren.length - maxVisibleCompleted
  (if hiddenCompleted > 0 then [completedMarker hiddenCompleted] else [])
    ++ (takeLast maxVisibleCompleted completedChildren).map completedLine

/-- The trailing summary line, built from the stats counters (not the local arrays).
Every subtraction is guarded by a `> 0` check on the same quantity, matching the
signed JS arithmetic. -/
def summaryBlock (stats : ParentStats) : List String :=
  let doneCount := stats.completed + stats.failed
  let runningCount := stats.total - doneCount
  let parts :=
    (if runningCount > 0 then [toString runningCount ++ " running"] else [])
      ++ (if stats.completed > 0 then [toString stats.completed ++ " done"] else [])
      ++ (if stats.failed > 0 then [toString stats.failed ++ " failed"] else [])
  if parts.length > 0 then
    ["── " ++ String.intercalate ", " parts ++ " (" ++ toString doneCount ++ "/"
      ++ toString stats.total ++ ") ──"]
  else []

/-- The `lines` array built by `getContentArray(parentId)`. -/
def NestedToolTracker.getContentLines (t : NestedToolTracker) (parentId : String) :
    List String :=
  match mapGet t.parentStats parentId with
  | none => []
  | some stats =>
    let running := stats.children.filter (fun c => c.status == ChildStatus.running)
    let failedCs := stats.children.filter (fun c => c.status == ChildStatus.failed)
    let completedCs := stats.children.filter (fun c => c.status == ChildStatus.completed)
    running.map runningLine
      ++ failedBlock t.maxVisibleFailed failedCs
      ++ completedBlock t.maxVisibleCompleted completedCs
      ++ summaryBlock stats

/-- `getContentArray(parentId)`: a single text block joining the lines (or `[]` for an
unknown parent). -/
def NestedToolTracker.getContentArray (t : NestedToolTracker) (parentId : String) :
    List ContentItem :=
  match mapGet t.parentStats parentId with
  | none => []
  | some _ => [.text (String.intercalate "\n" (t.getContentLines parentId))]

/-- `clear()`. -/
def NestedToolTracker.clear (t : NestedToolTracker) : NestedToolTracker :=
  { t with childTools := [], parentStats := [] }

/-! ## Tool-call identity mapper and status validator (`src/to-acp.js`) -/

/-- A record of `activeToolCalls`: the per-call state stored on `tool_use`. -/
structure ToolCallRec where
  ampId : String
  name : String
  input : ToolInput
  startTime : Nat
  lastStatus : Status
deriving DecidableEq, Repr

/-- The `do { acpId = ampId + '_' + randomUUID().slice(0,8) } while (active.has(acpId))`
loop: pick the first supplied suffix whose candidate id is not active.  `none` models
an exhausted supply (the source would keep drawing fresh randomness). -/
def pickFreshId (ampId : String) (active : List (String × ToolCallRec)) :
    List String → Option String
  | [] => none
  | s :: rest =>
    let cand := ampId ++ "_" ++ s
    if mapHas active cand then pickFreshId ampId active rest else some cand

/-- `getUniqueToolCallId(ampId)`: resolve an Amp tool_use id to a session-unique ACP id,
persisting the mapping in `ampToAcpToolIds`.  Returns the id and the updated mapping.
The `if (existing)` guard is JS truthiness, so a falsy (empty-string) mapped value is
ignored and the resolution falls through to the collision logic. -/
def getUniqueToolCallId (idMap : List (String × String))
    (active : List (String × ToolCallRec)) (suffixes : List String) (ampId : String) :
    Option (String × List (String × String)) :=
  match truthy (mapGet idMap ampId) with
  | some existing => some (existing, idMap)
  | none =>
    if !mapHas active ampId then some (ampId, mapSet idMap ampId ampId)
    else match pickFreshId ampId active suffixes with
    | some acpId => some (acpId, mapSet idMap ampId acpId)
    | none => none

/-- `findAcpToolCallId(ampId)`: persistent mapping first, then a direct hit in
`activeToolCalls`, then a scan for a record whose `ampId` matches. -/
def findAcpToolCallId (idMap : List (String × String))
    (active : List (String × ToolCallRec)) (ampId : String) : Option String :=
  match truthy (mapGet idMap ampId) with
  | some mapped => some mapped
  | none =>
    if mapHas active ampId then some ampId
    else match active.find? (fun p => p.2.ampId == ampId) with
    | some p => some p.1
    | none => none

/-- The `validTransitions` table of `validateStatusTransition`:
`in_progress → {completed, failed}` plus idempotent terminal repeats. -/
def statusTransitionAllowed : Status → Status → Bool
  | .inProgress, .completed => true
  | .inProgress, .failed => true
  | .completed, .completed => true
  | .failed, .failed => true
  | _, _ => false

/-- `validateStatusTransition(toolCallId, newStatus)`: a call absent from
`activeToolCalls` is treated as new (always valid); otherwise the transition table
decides. -/
def validateStatusTransition (active : List (String × ToolCallRec))
    (toolCallId : String) (newStatus : Status) : Bool :=
  match mapGet active toolCallId with
  | none => true
  | some existingCall => statusTransitionAllowed existingCall.lastStatus newStatus

/-! ## Result-content rendering (`src/to-acp.js`) -/

/-- `wrapCode(t)`. -/
def wrapCode (t : String) : String :=
  "```\n" ++ t ++ "\n```"

/-- `toAcpContentArray(content, isError)`. -/
def toAcpContentArray (content : ResultContent) (isError : Bool) : List ContentItem :=
  match content with
  | .blocks [] => []
  | .blocks bs =>
    bs.map (fun c =>
      match c with
      | .text t => .text (if isError then wrapCode t else t)
      | .other tag => .passthrough tag)
  | .str "" => []
  | .str s => [.text (if isError then wrapCode s else s)]
  | .absent => []

/-- `toAcpDiffContent(toolName, input, resultContent)`. -/
def toAcpDiffContent (toolName : String) (input : ToolInput)
    (resultContent : ResultContent) : List ContentItem :=
  match truthy input.path with
  | none => toAcpContentArray resultContent false
  | some p =>
    if toolName == "create_file" then
      [.diff p none (input.content.getD "")]
    else if toolName == "edit_file" then
      [.diff p (some (input.old_str.getD "")) (input.new_str.getD "")]
    else toAcpContentArray resultContent false

/-! ## Usage normalization (`toAcpUsageUpdate` in `src/to-acp.js`) -/

/-- `getNumericValue(obj, keys)` specialised to a list of already-extracted aliases:
the first present value wins. -/
def firstNumeric (vals : List (Option ℚ)) : Option ℚ :=
  match vals with
  | [] => none
  | v :: rest =>
    match v with
    | some x => some x
    | none => firstNumeric rest

/-- `toAcpUsageUpdate(msg)` given the already-selected `usage` object
(`msg.usage ?? msg.result.usage`). -/
def toAcpUsageUpdate (usage : Option Usage) : Option Update :=
  match usage with
  | none => none
  | some u =>
    let size0 := firstNumeric [u.size, u.context_size, u.window_size]
    let used0 := firstNumeric
      [u.used, u.context_used, u.used_tokens, u.total_tokens, u.totalTokens]
    let used1 :=
      match used0 with
      | some x => some x
      | none =>
        let inputTokens := (firstNumeric [u.input_tokens, u.inputTokens]).getD 0
        let outputTokens := (firstNumeric [u.output_tokens, u.outputTokens]).getD 0
        let thoughtTokens := (firstNumeric [u.thought_tokens, u.thoughtTokens]).getD 0
        let cachedReadTokens :=
          (firstNumeric [u.cached_read_input_tokens, u.cachedReadTokens]).getD 0
        let cachedWriteTokens :=
          (firstNumeric [u.cached_write_input_tokens, u.cachedWriteTokens]).getD 0
        let tokenSum := inputTokens + outputTokens + thoughtTokens
          + cachedReadTokens + cachedWriteTokens
        if tokenSum > 0 then some tokenSum else none
    let size1 :=
      match size0, used1 with
      | none, some x => some x
      | s, _ => s
    match size1, used1 with
    | some size, some used =>
      let cost :=
        match u.cost with
        | some c =>
          -- cost object present: no fallback to cost_usd/costUsd even when incomplete
          match c.amount, truthy c.currency with
          | some amount, some currency => some (amount, currency)
          | _, _ => none
        | none =>
          match firstNumeric [u.cost_usd, u.costUsd] with
          | some amount => some (amount, "USD")
          | none => none
      some (.usageUpdate size used cost)
    | _, _ => none

/-! ## The translator (`toAcpNotifications` in `src/to-acp.js`)

The mutable arguments (`activeToolCalls`, `nestedTracker`, `ampToAcpToolIds`) are
threaded through a `TransState`; `Date.now()` and the `randomUUID()` supply are
explicit fields.  The result is `none` exactly when the suffix supply runs out in
`getUniqueToolCallId` (the source would loop drawing randomness). -/

structure TransState where
  active : List (String × ToolCallRec)
  idMap : List (String × String)
  tracker : Option NestedToolTracker
  suffixes : List String
  now : Nat
deriving DecidableEq, Repr

/-- `'Session started. Tools: N, MCP Servers: ...'` for a `system`/`init` event. -/
def mcpListStr (servers : Option (List (String × String))) : String :=
  match servers with
  | none => "none"
  | some [] => "none"
  | some l => String.intercalate ", " (l.map (fun s => s.1 ++ " (" ++ s.2 ++ ")"))

/-- The terminal-update content of a non-child tool result: file-editing tools render
a structured diff on success, everything else renders the result content (error
results wrapped as a code block). -/
def userResultContent (toolCall : Option ToolCallRec) (isError : Bool)
    (resContent : ResultContent) : List ContentItem :=
  match toolCall with
  | some tc =>
    if !isError && isFileEditTool tc.name then
      toAcpDiffContent tc.name tc.input resContent
    else toAcpContentArray resContent isError
  | none => toAcpContentArray resContent isError

/-- Process the content chunks of a `user` event (tool results). -/
def processUserChunks (mode : NestedMode) (sessionId : String) :
    List ContentChunk → TransState → List Notification × TransState
  | [], st => ([], st)
  | chunk :: rest, st =>
    match chunk with
    | .toolResult ampId isError resContent =>
      let status := if isError then Status.failed else Status.completed
      let acpToolCallId := (findAcpToolCallId st.idMap st.active ampId).getD ampId
      if !validateStatusTransition st.active acpToolCallId status then
        -- invalid transition: skip emission (logged only)
        processUserChunks mode sessionId rest st
      else
        -- inline-mode child results update the parent instead
        let inlineChild :=
          if mode == NestedMode.inline && !(mode == NestedMode.flat) then
            match st.tracker with
            | some tr =>
              match tr.completeChild ampId isError with
              | (some childInfo, tr') => some (childInfo, tr')
              | (none, _) => none
            | none => none
          else none
        match inlineChild with
        | some (childInfo, tr') =>
          let st' := { st with tracker := some tr' }
          let note : Notification :=
            ⟨sessionId, .toolCallUpdate childInfo.parentToolUseId none
              (tr'.getContentArray childInfo.parentToolUseId)⟩
          let (out, st'') := processUserChunks mode sessionId rest st'
          (note :: out, st'')
        | none =>
          let toolCall := mapGet st.active acpToolCallId
          let st' := { st with active := mapDel st.active acpToolCallId }
          let content := userResultContent toolCall isError resContent
          let note : Notification :=
            ⟨sessionId, .toolCallUpdate acpToolCallId (some status) content⟩
          let (out, st'') := processUserChunks mode sessionId rest st'
          (note :: out, st'')
    | _ =>
      -- text chunks in user messages are ignored
      processUserChunks mode sessionId rest st

/-- Process the content chunks of an `assistant` event. -/
def processAssistantChunks (mode : NestedMode) (sessionId : String)
    (parentToolUseId : Option String) :
    List ContentChunk → TransState → Option (List Notification × TransState)
  | [], st => some ([], st)
  | chunk :: rest, st =>
    match chunk with
    | .text t =>
      if (truthy parentToolUseId).isSome && mode == NestedMode.inline
          && !(mode == NestedMode.flat) then
        -- subagent text is suppressed in inline mode
        processAssistantChunks mode sessionId parentToolUseId rest st
      else
        match processAssistantChunks mode sessionId parentToolUseId rest st with
        | some (out, st') => some (⟨sessionId, .agentMessageChunk t⟩ :: out, st')
        | none => none
    | .toolUse ampId name input =>
      match getUniqueToolCallId st.idMap st.active st.suffixes ampId with
      | none => none
      | some (acpToolCallId, idMap') =>
        let st1 := { st with idMap := idMap' }
        let isChildTool := (truthy parentToolUseId).isSome
        let inlineChild :=
          if mode == NestedMode.inline && !(mode == NestedMode.flat) && isChildTool then
            st1.tracker
          else none
        match inlineChild, truthy parentToolUseId with
        | some tr, some parentId =>
          let tr' := tr.registerChild ampId parentId name input
          let st2 := { st1 with tracker := some tr' }
          let note : Notification :=
            ⟨sessionId, .toolCallUpdate parentId none (tr'.getContentArray parentId)⟩
          match processAssistantChunks mode sessionId parentToolUseId rest st2 with
          | some (out, st') => some (note :: out, st')
          | none => none
        | _, _ =>
          let locations := getToolLocations name input
          let meta :=
            if !(mode == NestedMode.flat) then truthy parentToolUseId else none
          let st2 := { st1 with
            active := mapSet st1.active acpToolCallId
              ⟨ampId, name, input, st1.now, .inProgress⟩ }
          let parentIdForTitle :=
            if mode == NestedMode.flat then none else parentToolUseId
          let note : Notification :=
            ⟨sessionId, .toolCall acpToolCallId input .inProgress
              (getToolTitle name parentIdForTitle input) (getToolKind name) []
              locations meta⟩
          match processAssistantChunks mode sessionId parentToolUseId rest st2 with
          | some (out, st') => some (note :: out, st')
          | none => none
    | .thinking t =>
      match processAssistantChunks mode sessionId parentToolUseId rest st with
      | some (out, st') => some (⟨sessionId, .agentThoughtChunk t⟩ :: out, st')
      | none => none
    | .toolResult _ _ _ =>
      -- no branch of the assistant switch handles tool_result chunks
      processAssistantChunks mode sessionId parentToolUseId rest st

/-- `toAcpNotifications(msg, sessionId, activeToolCalls, _clientCapabilities,
nestedTracker, ampToAcpToolIds)` with `config.nestedToolMode = mode`. -/
def toAcpNotifications (mode : NestedMode) (msg : Msg) (sessionId : String)
    (st : TransState) : Option (List Notification × TransState) :=
  match msg with
  | .system subtype toolCount mcpServers =>
    if subtype == some "init" then
      some ([⟨sessionId, .agentThoughtChunk
        ("Session started. Tools: " ++ toString (toolCount.getD 0)
          ++ ", MCP Servers: " ++ mcpListStr mcpServers)⟩], st)
    else some ([], st)
  | .user content _ =>
    match content with
    | some chunks => some (processUserChunks mode sessionId chunks st)
    | none => some ([], st)
  | .assistant content parentToolUseId =>
    match content with
    | some chunks => processAssistantChunks mode sessionId parentToolUseId chunks st
    | none => some ([], st)
  | .result subtype error usage resultUsage =>
    let usageObj :=
      match usage with
      | some u => some u
      | none => resultUsage
    let usageNotes :=
      match toAcpUsageUpdate usageObj with
      | some upd => [(⟨sessionId, upd⟩ : Notification)]
      | none => []
    let errNotes :=
      if subtype == some "error_during_execution" || subtype == some "error_max_turns" then
        [(⟨sessionId, .agentMessageChunk
          ("Error: " ++ (match error with | some e => e | none => "undefined"))⟩ :
          Notification)]
      else []
    some (usageNotes ++ errNotes, st)
  | .unknown => some ([], st)

/-- Feed a list of backend events through the translator in order, collecting all
notifications (the per-session streaming loop of the orchestrator). -/
def runEvents (mode : NestedMode) (sessionId : String) :
    List Msg → TransState → Option (List Notification × TransState)
  | [], st => some ([], st)
  | m :: ms, st =>
    match toAcpNotifications mode m sessionId st with
    | none => none
    | some (out, st') =>
      match runEvents mode sessionId ms st' with
      | none => none
      | some (out', st'') => some (out ++ out', st'')

/-- The tool statuses carried by a notification list, in emission order. -/
def emittedStatuses (notes : List Notification) : List (String × Status) :=
  notes.foldr (fun n acc =>
    match n.update with
    | .toolCall id _ status _ _ _ _ _ => (id, status) :: acc
    | .toolCallUpdate id (some status) _ => (id, status) :: acc
    | _ => acc) []

/-! ## Session orchestrator fragments (`src/server.js`)

Only the state the claims touch is modelled: the prompt-start prefix of `prompt()`
(state flags, stale-tool sweep, map/tracker clearing), the orphaned-tool-call pass of
`_cleanupSession`, and `cancel`.  `client.sessionUpdate` calls are modelled as an
emitted notification list; `logProtocol.warn` calls emit nothing. -/

inductive SessionLifecycle where
  | idle
  | active
  | failed
deriving DecidableEq, Repr

/-- The per-session state fields read or written by the modelled fragments.
`proc` and `abortController` are reduced to presence flags; `safeKill` and
`abortController.abort()` become emitted effects. -/
structure ServerSession where
  state : SessionLifecycle
  cancelled : Bool
  active : Bool
  activeToolCalls : List (String × ToolCallRec)
  ampToAcpToolIds : List (String × String)
  tracker : NestedToolTracker
  lastActivityAt : Nat
  proc : Bool
  abortController : Bool
deriving DecidableEq, Repr

/-- The stale-tool-call deletion loop of `prompt()`: drop every record with
`startTime < Date.now() - config.staleToolTimeoutMs` (signed comparison). -/
def staleSweep (m : List (String × ToolCallRec)) (now staleToolTimeoutMs : Nat) :
    List (String × ToolCallRec) :=
  m.filter (fun p => !decide ((p.2.startTime : Int) < (now : Int) - (staleToolTimeoutMs : Int)))

/-- The prompt-start prefix of `prompt()` (after the FAILED-state guard): set the
state flags and activity timestamp, delete stale tool calls (logging only), then
clear the tool-call map and the nested tracker.  Returns the updated session and the
notifications sent to the client in this region (there are none). -/
def promptStart (s : ServerSession) (now staleToolTimeoutMs : Nat) :
    ServerSession × List Notification :=
  let s1 := { s with
    state := .active, cancelled := false, active := true, lastActivityAt := now }
  let s2 := { s1 with activeToolCalls := staleSweep s1.activeToolCalls now staleToolTimeoutMs }
  let s3 := { s2 with activeToolCalls := [], tracker := s2.tracker.clear }
  (s3, [])

/-- The orphaned-tool-call pass of `_cleanupSession(sessionId)`: for every tool call
whose status is not terminal, send a `failed` update marked "interrupted". -/
def cleanupNotifications (sessionId : String) (m : List (String × ToolCallRec)) :
    List Notification :=
  m.filterMap (fun p =>
    match p.2.lastStatus with
    | .completed => none
    | .failed => none
    | .inProgress =>
      some ⟨sessionId, .toolCallUpdate p.1 (some .failed)
        [.text "Tool call was interrupted"]⟩)

/-- The externally visible side effects of `cancel`. -/
inductive CancelEffect where
  | killProc (signal : String)
  | abortSignal
deriving DecidableEq, Repr

/-- `cancel(params)`: unknown sessions and sessions without an active prompt return
`{outcome:'cancelled'}` untouched; an active session gets its `cancelled` flag set and
its backend terminated (process kill for CLI, abort for SDK). -/
def cancel (sessions : List (String × ServerSession)) (sessionId : String) :
    String × List (String × ServerSession) × List CancelEffect :=
  match mapGet sessions sessionId with
  | none => ("cancelled", sessions, [])
  | some s =>
    if s.active then
      let s' := { s with cancelled := true }
      let effects :=
        if s.proc then [CancelEffect.killProc "SIGINT"]
        else if s.abortController then [CancelEffect.abortSignal]
        else []
      ("cancelled", mapSet sessions sessionId s', effects)
    else ("cancelled", sessions, [])

/-! ## Circuit-breaker lemmas and claims C6, C7 -/

theorem applyFailures_nil (b : CircuitBreaker) : b.applyFailures [] = b := rfl

theorem applyFailures_cons (b : CircuitBreaker) (t : Nat) (ts : List Nat) :
    b.applyFailures (t :: ts) = (b.recordFailure t).applyFailures ts := rfl

/-- `recordFailure` from a closed breaker below threshold: stay closed, count up, stamp
the failure time. -/
theorem recordFailure_closed_below (b : CircuitBreaker) (n : Nat)
    (hb : b.state = .closed) (hlt : b.failureCount + 1 < b.failureThreshold) :
    b.recordFailure n = { b with lastFailureTime := some n, failureCount := b.failureCount + 1 } := by
  unfold CircuitBreaker.recordFailure
  rw [hb]
  simp only
  rw [if_neg (by omega)]

/-- `recordFailure` from a closed breaker reaching the threshold: open. -/
theorem recordFailure_closed_reach (b : CircuitBreaker) (n : Nat)
    (hb : b.state = .closed) (hge : b.failureCount + 1 ≥ b.failureThreshold) :
    b.recordFailure n = { b with lastFailureTime := some n, failureCount := b.failureCount + 1, state := .opened } := by
  unfold CircuitBreaker.recordFailure
  rw [hb]
  simp only
  rw [if_pos (by omega)]

/-- Below the threshold, a closed breaker stays closed with the failure count simply
accumulating. -/
theorem applyFailures_stay_closed (times : List Nat) :
    ∀ b : CircuitBreaker, b.state = .closed →
      b.failureCount + times.length < b.failureThreshold →
      (b.applyFailures times).state = .closed ∧
      (b.applyFailures times).failureCount = b.failureCount + times.length := by
  induction times with
  | nil => intro b hb _; exact ⟨hb, rfl⟩
  | cons t ts ih =>
    intro b hb hlt
    simp only [List.length_cons] at hlt
    rw [applyFailures_cons, recordFailure_closed_below b t hb (by omega)]
    obtain ⟨h1, h2⟩ :=
      ih { b with lastFailureTime := some t, failureCount := b.failureCount + 1 }
        hb (by simp only; omega)
    refine ⟨h1, ?_⟩
    rw [h2]
    show b.failureCount + 1 + ts.length = b.failureCount + (t :: ts).length
    simp only [List.length_cons]
    omega

/-- Exactly at the threshold, the breaker opens and records the last failure time. -/
theorem applyFailures_reach_open (times : List Nat) :
    ∀ b : CircuitBreaker, b.state = .closed → times ≠ [] →
      b.failureCount + times.length = b.failureThreshold →
      (b.applyFailures times).state = .opened ∧
      (b.applyFailures times).lastFailureTime = times.getLast? ∧
      (b.applyFailures times).resetTimeMs = b.resetTimeMs ∧
      (b.applyFailures times).halfOpenMaxAttempts = b.halfOpenMaxAttempts := by
  induction times with
  | nil => intro b _ hne _; exact absurd rfl hne
  | cons t ts ih =>
    intro b hb _ hsum
    simp only [List.length_cons] at hsum
    cases ts with
    | nil =>
      simp only [List.length_nil] at hsum
      rw [applyFailures_cons, recordFailure_closed_reach b t hb (by omega)]
      exact ⟨rfl, rfl, rfl, rfl⟩
    | cons t2 ts2 =>
      simp only [List.length_cons] at hsum
      rw [applyFailures_cons, recordFailure_closed_below b t hb (by omega)]
      have hres :=
        ih { b with lastFailureTime := some t, failureCount := b.failureCount + 1 }
          hb (by simp)
          (by
            show b.failureCount + 1 + (t2 :: ts2).length = b.failureThreshold
            simp only [List.length_cons]
            omega)
      simpa [List.getLast?_cons_cons] using hres

/-- **C6** Starting from a fresh closed circuit breaker, after exactly `threshold`
consecutive `recordFailure` calls `isAllowed()` returns false (before the reset
interval elapses); once the reset interval has elapsed since the last failure, the
next `isAllowed()` call returns true and transitions the breaker to `half_open`; a
single `recordFailure` while `half_open` (probe budget 1) returns the breaker to
`open` immediately; fewer than `threshold` failures never block. -/
theorem circuitBreakerThreshold (threshold reset : Nat) (times : List Nat)
    (τ m m2 n : Nat) (hth : 1 ≤ threshold) (hlen : times.length = threshold)
    (hlast : times.getLast? = some τ)
    (hm : (m : Int) - (τ : Int) < (reset : Int))
    (hm2 : (m2 : Int) - (τ : Int) ≥ (reset : Int)) :
    ((CircuitBreaker.mk0 threshold reset 1).applyFailures times).state = .opened
    ∧ ((((CircuitBreaker.mk0 threshold reset 1).applyFailures times).isAllowed m)).1 = false
    ∧ ((((CircuitBreaker.mk0 threshold reset 1).applyFailures times).isAllowed m2)).1 = true
    ∧ ((((CircuitBreaker.mk0 threshold reset 1).applyFailures times).isAllowed m2)).2.state = .halfOpen
    ∧ (((((CircuitBreaker.mk0 threshold reset 1).applyFailures times).isAllowed m2)).2.recordFailure n).state = .opened
    ∧ ∀ ts : List Nat, ts.length < threshold →
        ((CircuitBreaker.mk0 threshold reset 1).applyFailures ts).state = .closed
        ∧ ∀ k, ((((CircuitBreaker.mk0 threshold reset 1).applyFailures ts).isAllowed k)).1 = true := by
  have hne : times ≠ [] := by
    intro h; rw [h] at hlen; simp at hlen; omega
  obtain ⟨hstate, hlft, hreset, hmax⟩ :=
    applyFailures_reach_open times (CircuitBreaker.mk0 threshold reset 1)
      rfl hne (by simpa [CircuitBreaker.mk0] using hlen)
  rw [hlast] at hlft
  set bt := (CircuitBreaker.mk0 threshold reset 1).applyFailures times with hbt
  have hreset' : bt.resetTimeMs = reset := hreset
  have hmax' : bt.halfOpenMaxAttempts = 1 := hmax
  have hAllowM : bt.isAllowed m = (false, bt) := by
    simp only [CircuitBreaker.isAllowed, hstate, hlft, hreset']
    rw [if_neg (by simp; omega)]
  have hAllowM2 : bt.isAllowed m2 =
      (true, { bt with state := .halfOpen, halfOpenAttempts := 0 }) := by
    simp only [CircuitBreaker.isAllowed, hstate, hlft, hreset']
    rw [if_pos (by simp; omega)]
  refine ⟨hstate, by rw [hAllowM], by rw [hAllowM2], by rw [hAllowM2], ?_, ?_⟩
  · rw [hAllowM2]
    simp only [CircuitBreaker.recordFailure]
    rw [if_pos (by simp [hmax'])]
  · intro ts hts
    obtain ⟨h1, h2⟩ :=
      applyFailures_stay_closed ts (CircuitBreaker.mk0 threshold reset 1)
        rfl (by simpa [CircuitBreaker.mk0] using hts)
    exact ⟨h1, fun k => by simp [CircuitBreaker.isAllowed, h1]⟩

/-- Witness for C6 at threshold 2, reset interval 5, failures at times 0 and 1. -/
theorem circuitBreakerThreshold_witness :
    ((CircuitBreaker.mk0 2 5 1).applyFailures [0, 1]).state = .opened
    ∧ ((((CircuitBreaker.mk0 2 5 1).applyFailures [0, 1]).isAllowed 3)).1 = false
    ∧ ((((CircuitBreaker.mk0 2 5 1).applyFailures [0, 1]).isAllowed 6)).1 = true
    ∧ ((((CircuitBreaker.mk0 2 5 1).applyFailures [0, 1]).isAllowed 6)).2.state = .halfOpen
    ∧ (((((CircuitBreaker.mk0 2 5 1).applyFailures [0, 1]).isAllowed 6)).2.recordFailure 7).state = .opened
    ∧ ((CircuitBreaker.mk0 2 5 1).applyFailures [0]).state = .closed := by
  obtain ⟨h1, h2, h3, h4, h5, h6⟩ :=
    circuitBreakerThreshold 2 5 [0, 1] 1 3 6 7 (by decide) (by decide) (by decide)
      (by decide) (by decide)
  exact ⟨h1, h2, h3, h4, h5, (h6 [0] (by decide)).1⟩

/-- **C7 counterexample** A breaker that legitimately reached `half_open` keeps
returning `true` from `isAllowed()` before any probe outcome is recorded: the second
and third calls also return `true`, so `half_open` does not limit itself to a single
probe attempt through `isAllowed()` alone. -/
theorem halfOpenSingleProbe_counterexample :
    ((((CircuitBreaker.mk0 1 5 1).recordFailure 0).isAllowed 5)).2.state = .halfOpen
    ∧ (((((CircuitBreaker.mk0 1 5 1).recordFailure 0).isAllowed 5)).2.isAllowed 5).1 = true
    ∧ ((((((CircuitBreaker.mk0 1 5 1).recordFailure 0).isAllowed 5)).2.isAllowed 5).2.isAllowed 6).1 = true := by
  decide

/-- **C7 amended** While `half_open`, `isAllowed()` returns true (without consuming
the probe budget or changing any state) as long as fewer than `halfOpenMaxAttempts`
probe failures have been recorded, and false afterwards; the budget is only consumed
by `recordFailure`.  A recorded probe success returns the breaker to `closed` with
the failure count reset; a recorded probe failure (with the budget exhausted, as in
the default budget of one) returns it to `open` and re-stamps the last-failure time,
restarting the reset-interval clock. -/
theorem halfOpenProbeSemantics (b : CircuitBreaker) (now n : Nat)
    (hb : b.state = .halfOpen) :
    (b.halfOpenAttempts < b.halfOpenMaxAttempts → b.isAllowed now = (true, b))
    ∧ (b.halfOpenMaxAttempts ≤ b.halfOpenAttempts → (b.isAllowed now).1 = false)
    ∧ b.recordSuccess.state = .closed
    ∧ b.recordSuccess.failureCount = 0
    ∧ (b.halfOpenMaxAttempts ≤ b.halfOpenAttempts + 1 →
        (b.recordFailure n).state = .opened ∧ (b.recordFailure n).lastFailureTime = some n) := by
  refine ⟨?_, ?_, ?_, ?_, ?_⟩
  · intro h
    simp [CircuitBreaker.isAllowed, hb, h]
  · intro h
    simp [CircuitBreaker.isAllowed, hb]
    omega
  · simp [CircuitBreaker.recordSuccess, hb]
  · simp [CircuitBreaker.recordSuccess, hb]
  · intro h
    simp only [CircuitBreaker.recordFailure, hb]
    rw [if_pos (by omega)]
    exact ⟨rfl, rfl⟩

/-- Witness for C7's amended claim on a breaker sitting in `half_open` with an unused
probe budget of one. -/
theorem halfOpenProbeSemantics_witness :
    (⟨1, 5, 1, .halfOpen, 1, some 0, 0⟩ : CircuitBreaker).isAllowed 6 = (true, ⟨1, 5, 1, .halfOpen, 1, some 0, 0⟩)
    ∧ ((⟨1, 5, 1, .halfOpen, 1, some 0, 0⟩ : CircuitBreaker).recordFailure 7).state = .opened := by
  obtain ⟨h1, _, _, _, h5⟩ :=
    halfOpenProbeSemantics ⟨1, 5, 1, .halfOpen, 1, some 0, 0⟩ 6 7 rfl
  exact ⟨h1 (by decide), (h5 (by decide)).1⟩

/-! ## Claims C10, C5, C4: cancel and prompt-start behaviour -/

/-- **C10** `cancel` with an unknown session id, or on a session with no active
prompt, returns outcome `'cancelled'` without error, leaves every session's state
unchanged (no cancellation flag set) and touches no process or abort signal. -/
theorem cancelUnknownOrInactiveNoop (sessions : List (String × ServerSession))
    (sessionId : String) :
    (mapGet sessions sessionId = none →
      cancel sessions sessionId = ("cancelled", sessions, []))
    ∧ (∀ s, mapGet sessions sessionId = some s → s.active = false →
        cancel sessions sessionId = ("cancelled", sessions, [])) := by
  constructor
  · intro h
    simp [cancel, h]
  · intro s hs hactive
    simp [cancel, hs, hactive]

/-- Witness for C10: an unknown id on an empty session table, and an inactive
session. -/
theorem cancelUnknownOrInactiveNoop_witness :
    cancel [] "S-missing" = ("cancelled", [], [])
    ∧ cancel [("S-1", ⟨.idle, false, false, [], [], .new, 0, false, false⟩)] "S-1"
      = ("cancelled", [("S-1", ⟨.idle, false, false, [], [], .new, 0, false, false⟩)], []) := by
  constructor
  · exact (cancelUnknownOrInactiveNoop [] "S-missing").1 (by decide)
  · exact (cancelUnknownOrInactiveNoop
      [("S-1", ⟨.idle, false, false, [], [], .new, 0, false, false⟩)] "S-1").2
      ⟨.idle, false, false, [], [], .new, 0, false, false⟩ (by decide) rfl

/-- **C5 counterexample** The backendId→publicId map is not cleared at the start of
a new prompt: a mapping recorded in a previous turn (here `a → a_x`) is still
observed by a resolve call in the new turn. -/
theorem idMapCleared_counterexample :
    ((promptStart ⟨.idle, false, false, [], [("a", "a_x")], .new, 0, false, false⟩
        1000000 500).1).ampToAcpToolIds = [("a", "a_x")]
    ∧ getUniqueToolCallId
        ((promptStart ⟨.idle, false, false, [], [("a", "a_x")], .new, 0, false, false⟩
          1000000 500).1).ampToAcpToolIds [] [] "a"
      = some ("a_x", [("a", "a_x")]) := by
  decide

/-- **C5 amended** At the start of every new prompt the in-flight tool-call map and
the nested-tool tracker are cleared, but the backendId→publicId map persists
unchanged (it lives for the whole session), so a resolve in a new turn can observe a
mapping created in an earlier turn. -/
theorem idMapPersistsAcrossPrompts (s : ServerSession) (now staleMs : Nat) :
    ((promptStart s now staleMs).1).ampToAcpToolIds = s.ampToAcpToolIds
    ∧ ((promptStart s now staleMs).1).activeToolCalls = []
    ∧ ((promptStart s now staleMs).1).tracker.childTools = []
    ∧ ((promptStart s now staleMs).1).tracker.parentStats = [] := by
  exact ⟨rfl, rfl, rfl, rfl⟩

/-- **C4 counterexample** A session carrying a stale open tool call (started at time
0, far older than the staleness threshold) reaches the start of the next prompt: the
call is removed from the in-flight map, but no notification at all is emitted — in
particular no `tool_call_update` with status `failed` and an "interrupted" marker. -/
theorem staleSweep_counterexample :
    (promptStart
        ⟨.idle, false, false, [("t1", ⟨"t1", "Read", ToolInput.empty, 0, .inProgress⟩)],
          [], .new, 0, false, false⟩
        10000000 1800000).2 = []
    ∧ mapGet ((promptStart
        ⟨.idle, false, false, [("t1", ⟨"t1", "Read", ToolInput.empty, 0, .inProgress⟩)],
          [], .new, 0, false, false⟩
        10000000 1800000).1).activeToolCalls "t1" = none := by
  exact ⟨rfl, rfl⟩

/-- **C4 amended** At the start of the next prompt, tool calls older than the
staleness threshold are deleted from the in-flight map (and the whole map is then
cleared), with no notification emitted; the forcible `failed` update with the
"Tool call was interrupted" marker is emitted only by session cleanup
(`_cleanupSession`), for every tool call whose status is not yet terminal. -/
theorem staleSweepNoNotification (s : ServerSession) (now staleMs : Nat)
    (sessionId : String) :
    ((∀ id tc, (id, tc) ∈ s.activeToolCalls →
        (tc.startTime : Int) < (now : Int) - (staleMs : Int) →
        (id, tc) ∉ staleSweep s.activeToolCalls now staleMs)
    ∧ (promptStart s now staleMs).2 = []
    ∧ ((promptStart s now staleMs).1).activeToolCalls = [])
    ∧ ∀ id tc, (id, tc) ∈ s.activeToolCalls → tc.lastStatus = .inProgress →
        (⟨sessionId, .toolCallUpdate id (some .failed)
          [.text "Tool call was interrupted"]⟩ : Notification)
          ∈ cleanupNotifications sessionId s.activeToolCalls := by
  refine ⟨⟨?_, rfl, rfl⟩, ?_⟩
  · intro id tc hmem hstale hin
    have := List.of_mem_filter hin
    simp at this
    omega
  · intro id tc hmem hst
    have : (some ⟨sessionId, .toolCallUpdate id (some .failed)
        [.text "Tool call was interrupted"]⟩ : Option Notification)
        = (fun p : String × ToolCallRec =>
            match p.2.lastStatus with
            | .completed => none
            | .failed => none
            | .inProgress =>
              some ⟨sessionId, .toolCallUpdate p.1 (some .failed)
                [.text "Tool call was interrupted"]⟩) (id, tc) := by
      simp [hst]
    exact List.mem_filterMap.mpr ⟨(id, tc), hmem, this.symm⟩

/-- Witness for C4's amended claim on a session with one stale in-progress call. -/
theorem staleSweepNoNotification_witness :
    ((("t1", (⟨"t1", "Read", ToolInput.empty, 0, .inProgress⟩ : ToolCallRec)) ∉
        staleSweep [("t1", ⟨"t1", "Read", ToolInput.empty, 0, .inProgress⟩)] 10000000 1800000)
    ∧ (promptStart
        ⟨.idle, false, false, [("t1", ⟨"t1", "Read", ToolInput.empty, 0, .inProgress⟩)],
          [], .new, 0, false, false⟩ 10000000 1800000).2 = [])
    ∧ (⟨"sess", .toolCallUpdate "t1" (some .failed)
        [.text "Tool call was interrupted"]⟩ : Notification)
        ∈ cleanupNotifications "sess"
          [("t1", ⟨"t1", "Read", ToolInput.empty, 0, .inProgress⟩)] := by
  obtain ⟨⟨h1, h2, _⟩, h4⟩ :=
    staleSweepNoNotification
      ⟨.idle, false, false, [("t1", ⟨"t1", "Read", ToolInput.empty, 0, .inProgress⟩)],
        [], .new, 0, false, false⟩ 10000000 1800000 "sess"
  exact ⟨⟨h1 "t1" ⟨"t1", "Read", ToolInput.empty, 0, .inProgress⟩ (by simp) (by decide), h2⟩,
    h4 "t1" ⟨"t1", "Read", ToolInput.empty, 0, .inProgress⟩ (by simp) rfl⟩

/-! ## Claims C2, C3: tool-call identity mapper -/

/-- The generation loop only ever returns an id that is not active. -/
theorem pickFreshId_fresh (ampId : String) (active : List (String × ToolCallRec)) :
    ∀ suffixes id, pickFreshId ampId active suffixes = some id →
      mapHas active id = false := by
  intro suffixes
  induction suffixes with
  | nil => intro id h; simp [pickFreshId] at h
  | cons s rest ih =>
    intro id h
    simp only [pickFreshId] at h
    by_cases hc : mapHas active (ampId ++ "_" ++ s) = true
    · rw [if_pos hc] at h
      exact ih id h
    · rw [if_neg hc] at h
      cases h
      simpa using hc

/-- A suffixed candidate id is never the empty string. -/
theorem append_underscore_ne_empty (a s : String) : a ++ "_" ++ s ≠ "" := by
  intro h
  have hlen := congrArg String.length h
  rw [String.length_append, String.length_append] at hlen
  have h1 : "_".length = 1 := rfl
  have h0 : "".length = 0 := rfl
  omega

/-- The generation loop only ever returns a non-empty (suffixed) id. -/
theorem pickFreshId_ne_empty (ampId : String) (active : List (String × ToolCallRec)) :
    ∀ suffixes id, pickFreshId ampId active suffixes = some id → id ≠ "" := by
  intro suffixes
  induction suffixes with
  | nil => intro id h; simp [pickFreshId] at h
  | cons s rest ih =>
    intro id h
    simp only [pickFreshId] at h
    by_cases hc : mapHas active (ampId ++ "_" ++ s) = true
    · rw [if_pos hc] at h
      exact ih id h
    · rw [if_neg hc] at h
      cases h
      exact append_underscore_ne_empty ampId s

/-- After a successful resolve, the persisted mapping holds the returned public id;
for a non-empty backend id the public id is non-empty (truthy) as well. -/
theorem getUniqueToolCallId_maps (idMap : List (String × String))
    (active : List (String × ToolCallRec)) (suffixes : List String)
    (ampId pub : String) (idMap' : List (String × String))
    (h : getUniqueToolCallId idMap active suffixes ampId = some (pub, idMap')) :
    mapGet idMap' ampId = some pub ∧ (ampId ≠ "" → pub ≠ "") := by
  unfold getUniqueToolCallId at h
  cases hm : truthy (mapGet idMap ampId) with
  | some existing =>
    rw [hm] at h
    simp only [Option.some.injEq, Prod.mk.injEq] at h
    obtain ⟨h1, h2⟩ := h
    obtain ⟨hg, hne⟩ := truthy_eq_some _ _ hm
    rw [← h2, ← h1]
    exact ⟨hg, fun _ => hne⟩
  | none =>
    rw [hm] at h
    by_cases ha : mapHas active ampId = true
    · simp only [ha, Bool.not_true, Bool.false_eq_true, if_false] at h
      cases hp : pickFreshId ampId active suffixes with
      | none => rw [hp] at h; cases h
      | some acpId =>
        rw [hp] at h
        simp only [Option.some.injEq, Prod.mk.injEq] at h
        obtain ⟨h1, h2⟩ := h
        rw [← h2, ← h1]
        exact ⟨mapGet_mapSet_self idMap ampId acpId,
          fun _ => pickFreshId_ne_empty ampId active suffixes acpId hp⟩
    · simp only [Bool.not_eq_true] at ha
      simp only [ha, Bool.not_false, if_true] at h
      simp only [Option.some.injEq, Prod.mk.injEq] at h
      obtain ⟨h1, h2⟩ := h
      rw [← h2, ← h1]
      exact ⟨mapGet_mapSet_self idMap ampId ampId, fun hne => hne⟩

/-- **C2 counterexample** The source's `if (existing)` guard is JS truthiness, so the
persisted mapping for the empty backend id (`"" → ""`) is ignored: the first resolve
of `""` maps it to itself, but a second resolve while `""` is active falls through to
the collision path and returns a fresh suffixed id — the same backend id resolves to
two different public ids within one turn. -/
theorem resolveIdempotent_counterexample :
    getUniqueToolCallId [] [] ["abcd1234"] "" = some ("", [("", "")])
    ∧ getUniqueToolCallId [("", "")]
        [("", ⟨"", "Read", ToolInput.empty, 0, .inProgress⟩)] ["abcd1234"] ""
      = some ("_abcd1234", [("", "_abcd1234")])
    ∧ ("_abcd1234" : String) ≠ "" := by
  decide

/-- **C2 amended** For every *non-empty* backend id resolved twice within the same
turn (same session maps, no intervening clear), the resolved public id is identical
both times and the persisted map is unchanged by the second call — in particular the
second resolution may happen with any later active tool-call set (e.g. after the
call has been deleted from it), and the lookup helper agrees.  The empty backend id
is excluded: its persisted mapping is falsy and ignored by the source. -/
theorem resolveIdempotent (idMap : List (String × String))
    (active : List (String × ToolCallRec)) (suffixes : List String)
    (ampId pub : String) (idMap' : List (String × String))
    (hamp : ampId ≠ "")
    (h : getUniqueToolCallId idMap active suffixes ampId = some (pub, idMap')) :
    ∀ (activeLater : List (String × ToolCallRec)) (suffixesLater : List String),
      getUniqueToolCallId idMap' activeLater suffixesLater ampId = some (pub, idMap')
      ∧ findAcpToolCallId idMap' activeLater ampId = some pub := by
  intro activeLater suffixesLater
  obtain ⟨hmap, hpub⟩ := getUniqueToolCallId_maps idMap active suffixes ampId pub idMap' h
  have hpub' := hpub hamp
  have htr : truthy (mapGet idMap' ampId) = some pub := by
    rw [hmap]
    show (if pub == "" then none else some pub : Option String) = some pub
    rw [if_neg (by simpa using hpub')]
  constructor
  · unfold getUniqueToolCallId
    rw [htr]
  · unfold findAcpToolCallId
    rw [htr]

/-- Witness for C2's amended claim: resolve the non-empty id `t1` on fresh maps, then
again after the call was removed from the active set. -/
theorem resolveIdempotent_witness :
    getUniqueToolCallId [("t1", "t1")] [] [] "t1" = some ("t1", [("t1", "t1")])
    ∧ findAcpToolCallId [("t1", "t1")] [] "t1" = some "t1" :=
  resolveIdempotent [] [] [] "t1" "t1" [("t1", "t1")] (by decide) (by decide) [] []

/-- **C3 counterexample** When the backend id is already a key of the active set but
was mapped earlier in the turn, resolve returns the previously persisted id — which
here equals the active public id `a`, so the returned id does not differ from every
active public id. -/
theorem collisionSafety_counterexample :
    getUniqueToolCallId [("a", "a")]
        [("a", ⟨"a", "Read", ToolInput.empty, 0, .inProgress⟩)] ["x1y2z3w4"] "a"
      = some ("a", [("a", "a")])
    ∧ mapHas [("a", (⟨"a", "Read", ToolInput.empty, 0, .inProgress⟩ : ToolCallRec))] "a"
      = true := by
  decide

/-- **C3 amended** If resolve is called with a backend id that is already a key of
the active tool-call set and that has no persisted mapping yet this turn, the public
id it returns differs from every public id currently in the active set (it is drawn
from the collision-avoiding generation loop); a backend id already mapped this turn
instead returns its previously persisted id, which may coincide with an active id. -/
theorem collisionSafetyUnmapped (idMap : List (String × String))
    (active : List (String × ToolCallRec)) (suffixes : List String)
    (ampId pub : String) (idMap' : List (String × String))
    (hunmapped : mapGet idMap ampId = none)
    (hactive : mapHas active ampId = true)
    (h : getUniqueToolCallId idMap active suffixes ampId = some (pub, idMap')) :
    mapHas active pub = false := by
  unfold getUniqueToolCallId at h
  have hm : truthy (mapGet idMap ampId) = none := by rw [hunmapped]; rfl
  rw [hm] at h
  simp only [hactive, Bool.not_true, Bool.false_eq_true, if_false] at h
  cases hp : pickFreshId ampId active suffixes with
  | none => rw [hp] at h; cases h
  | some acpId =>
    rw [hp] at h
    simp only [Option.some.injEq, Prod.mk.injEq] at h
    obtain ⟨h1, h2⟩ := h
    rw [← h1]
    exact pickFreshId_fresh ampId active suffixes acpId hp

/-- Witness for C3's amended claim: an unmapped backend id colliding with an active
public id resolves to a fresh suffixed id outside the active set. -/
theorem collisionSafetyUnmapped_witness :
    mapHas [("a", (⟨"a", "Read", ToolInput.empty, 0, .inProgress⟩ : ToolCallRec))]
      "a_x1y2z3w4" = false :=
  collisionSafetyUnmapped []
    [("a", ⟨"a", "Read", ToolInput.empty, 0, .inProgress⟩)] ["x1y2z3w4"]
    "a" "a_x1y2z3w4" [("a", "a_x1y2z3w4")] (by decide) (by decide) (by decide)

/-! ## Claim C8: aggregator content bound -/

/-- **C8** For a parent whose number `k` of completed children exceeds the
completed-visibility cap, the rendered lines contain exactly `cap` individual
completed-child lines — the most recent ones — preceded by exactly one collapse
marker whose count equals `k - cap` (with the running and failed sections and the
trailing summary around them). -/
theorem aggregatorContentBound (t : NestedToolTracker) (parentId : String)
    (stats : ParentStats) (hstats : mapGet t.parentStats parentId = some stats)
    (hcap : 0 < t.maxVisibleCompleted)
    (hk : t.maxVisibleCompleted
      < (stats.children.filter (fun c => c.status == ChildStatus.completed)).length) :
    t.getContentLines parentId
      = (stats.children.filter (fun c => c.status == ChildStatus.running)).map runningLine
        ++ failedBlock t.maxVisibleFailed
            (stats.children.filter (fun c => c.status == ChildStatus.failed))
        ++ (completedMarker
              ((stats.children.filter (fun c => c.status == ChildStatus.completed)).length
                - t.maxVisibleCompleted)
            :: (takeLast t.maxVisibleCompleted
                (stats.children.filter (fun c => c.status == ChildStatus.completed))).map
                completedLine)
        ++ summaryBlock stats
    ∧ ((takeLast t.maxVisibleCompleted
        (stats.children.filter (fun c => c.status == ChildStatus.completed))).map
        completedLine).length = t.maxVisibleCompleted := by
  constructor
  · simp only [NestedToolTracker.getContentLines, hstats, completedBlock]
    rw [if_pos (by omega)]
    simp
  · rw [List.length_map]
    exact takeLast_length _ _ (by omega)

/-- Concrete aggregator state for the C8 witness: four children registered under
parent `p` and all four completed. -/
def aggExTracker : NestedToolTracker :=
  let t1 := NestedToolTracker.new.registerChild "c1" "p" "Read" ToolInput.empty
  let t2 := t1.registerChild "c2" "p" "Read" ToolInput.empty
  let t3 := t2.registerChild "c3" "p" "Read" ToolInput.empty
  let t4 := t3.registerChild "c4" "p" "Read" ToolInput.empty
  let u1 := (t4.completeChild "c1" false).2
  let u2 := (u1.completeChild "c2" false).2
  let u3 := (u2.completeChild "c3" false).2
  (u3.completeChild "c4" false).2

/-- The parent stats of `aggExTracker` for parent `p`. -/
def aggExStats : ParentStats :=
  ⟨4, 4, 0,
    [⟨"c1", "Read", ToolInput.empty, .completed⟩, ⟨"c2", "Read", ToolInput.empty, .completed⟩,
     ⟨"c3", "Read", ToolInput.empty, .completed⟩, ⟨"c4", "Read", ToolInput.empty, .completed⟩]⟩

/-- Witness for C8 at four completed children against the cap of three. -/
theorem aggregatorContentBound_witness :
    aggExTracker.getContentLines "p"
      = (aggExStats.children.filter (fun c => c.status == ChildStatus.running)).map runningLine
        ++ failedBlock aggExTracker.maxVisibleFailed
            (aggExStats.children.filter (fun c => c.status == ChildStatus.failed))
        ++ (completedMarker
              ((aggExStats.children.filter (fun c => c.status == ChildStatus.completed)).length
                - aggExTracker.maxVisibleCompleted)
            :: (takeLast aggExTracker.maxVisibleCompleted
                (aggExStats.children.filter (fun c => c.status == ChildStatus.completed))).map
                completedLine)
        ++ summaryBlock aggExStats
    ∧ ((takeLast aggExTracker.maxVisibleCompleted
        (aggExStats.children.filter (fun c => c.status == ChildStatus.completed))).map
        completedLine).length = aggExTracker.maxVisibleCompleted :=
  aggregatorContentBound aggExTracker "p" aggExStats (by decide) (by decide) (by decide)

/-! ## Claim C9: flat-mode `tool_use` scenario -/

/-- The `Read` input of the C9 scenario. -/
def readInputEx : ToolInput :=
  { ToolInput.empty with path := some "/a/b.txt" }

/-- **C9** Translating an `assistant` event with exactly one `tool_use` block
`id "t1", name "Read", input.path "/a/b.txt"` under the `flat` policy produces
exactly one notification: a `tool_call` with toolCallId `t1` and status
`in_progress` (no separate pending notification), whose title contains `b.txt`. -/
theorem flatReadToolUseScenario :
    toAcpNotifications .flat
        (.assistant (some [.toolUse "t1" "Read" readInputEx]) none) "sess"
        ⟨[], [], some NestedToolTracker.new, [], 0⟩
      = some ([⟨"sess", .toolCall "t1" readInputEx .inProgress "Read a/b.txt" "read" []
          [⟨"/a/b.txt", none⟩] none⟩],
        ⟨[("t1", ⟨"t1", "Read", readInputEx, 0, .inProgress⟩)], [("t1", "t1")],
          some NestedToolTracker.new, [], 0⟩)
    ∧ ∃ pre post, "Read a/b.txt" = pre ++ "b.txt" ++ post := by
  refine ⟨by decide, "Read a/", "", by decide⟩

/-! ## Claim C1: tool-status transition sequences -/

/-- Deleting a key removes every binding for it. -/
theorem mapGet_mapDel_self {α : Type} (m : List (String × α)) (k : String) :
    mapGet (mapDel m k) k = none := by
  have hfind : (mapDel m k).find? (fun p => p.1 == k) = none := by
    rw [List.find?_eq_none]
    intro x hx
    have hp := List.of_mem_filter hx
    simpa using hp
  simp [mapGet, hfind]

/-- **C1 counterexample** A tracked tool call can emit `in_progress`, then
`completed`, then `failed`: the first terminal delivery removes the call from the
active set, so the later delivery of the *other* terminal status is treated as new
and re-emitted rather than skipped.  The emitted status sequence is therefore not a
subsequence of `in_progress` followed by repetitions of a single terminal status. -/
theorem toolStatusMonotonic_counterexample :
    (runEvents .flat "sess"
        [.assistant (some [.toolUse "t1" "Read" ToolInput.empty]) none,
         .user (some [.toolResult "t1" false .absent]) none,
         .user (some [.toolResult "t1" true .absent]) none]
        ⟨[], [], some NestedToolTracker.new, [], 0⟩).map
        (fun r => emittedStatuses r.1)
      = some [("t1", .inProgress), ("t1", .completed), ("t1", .failed)] := by
  decide

/-- Evaluation of the translator's user branch on a single tool result in flat mode:
a valid transition emits exactly one terminal update and deletes the call; an
invalid one emits nothing and changes nothing. -/
theorem processUserChunks_single (sid ampId : String) (isError : Bool)
    (rc : ResultContent) (st : TransState) :
    processUserChunks .flat sid [.toolResult ampId isError rc] st
      = if validateStatusTransition st.active
            ((findAcpToolCallId st.idMap st.active ampId).getD ampId)
            (if isError then Status.failed else Status.completed) then
          ([⟨sid, .toolCallUpdate ((findAcpToolCallId st.idMap st.active ampId).getD ampId)
              (some (if isError then Status.failed else Status.completed))
              (userResultContent
                (mapGet st.active ((findAcpToolCallId st.idMap st.active ampId).getD ampId))
                isError rc)⟩],
            { st with
              active := mapDel st.active ((findAcpToolCallId st.idMap st.active ampId).getD ampId) })
        else ([], st) := by
  cases hv : validateStatusTransition st.active
      ((findAcpToolCallId st.idMap st.active ampId).getD ampId)
      (if isError then Status.failed else Status.completed) with
  | false => simp [processUserChunks, hv]
  | true => simp [processUserChunks, hv]

/-- **C1 amended** For a tracked tool call the first emission is `in_progress`; a
terminal delivery is validated against the active set only: while the call is
recorded `in_progress` the terminal update is emitted and the call is deleted from
the active set, and once it is absent (as after any terminal emission) a later
delivery of *any* terminal status — a repeat of the same one or the other one — is
treated as new and re-emitted without changing the remaining state; a delivery is
skipped (no notification) exactly when the call is still recorded with a terminal
status different from the delivered one.  The emitted sequence is therefore
`in_progress` followed by arbitrarily many terminal statuses, not necessarily all
equal. -/
theorem toolStatusTerminalRedelivery (sid ampId : String) (isError : Bool)
    (rc : ResultContent) (st : TransState) :
    ((∃ tc, mapGet st.active ((findAcpToolCallId st.idMap st.active ampId).getD ampId)
          = some tc ∧ tc.lastStatus = .inProgress) →
      (processUserChunks .flat sid [.toolResult ampId isError rc] st).1
        = [⟨sid, .toolCallUpdate ((findAcpToolCallId st.idMap st.active ampId).getD ampId)
            (some (if isError then Status.failed else Status.completed))
            (userResultContent
              (mapGet st.active ((findAcpToolCallId st.idMap st.active ampId).getD ampId))
              isError rc)⟩]
      ∧ mapGet ((processUserChunks .flat sid [.toolResult ampId isError rc] st).2).active
          ((findAcpToolCallId st.idMap st.active ampId).getD ampId) = none)
    ∧ (mapGet st.active ((findAcpToolCallId st.idMap st.active ampId).getD ampId) = none →
      (processUserChunks .flat sid [.toolResult ampId isError rc] st).1
        = [⟨sid, .toolCallUpdate ((findAcpToolCallId st.idMap st.active ampId).getD ampId)
            (some (if isError then Status.failed else Status.completed))
            (userResultContent none isError rc)⟩])
    ∧ ∀ tc, mapGet st.active ((findAcpToolCallId st.idMap st.active ampId).getD ampId)
          = some tc →
        (tc.lastStatus = .completed ∨ tc.lastStatus = .failed) →
        ((processUserChunks .flat sid [.toolResult ampId isError rc] st).1 = []
          ↔ (if isError then Status.failed else Status.completed) ≠ tc.lastStatus) := by
  refine ⟨?_, ?_, ?_⟩
  · rintro ⟨tc, hget, hst⟩
    have hv : validateStatusTransition st.active
        ((findAcpToolCallId st.idMap st.active ampId).getD ampId)
        (if isError then Status.failed else Status.completed) = true := by
      unfold validateStatusTransition
      rw [hget]
      show statusTransitionAllowed tc.lastStatus
        (if isError then Status.failed else Status.completed) = true
      rw [hst]
      cases isError <;> rfl
    rw [processUserChunks_single, if_pos hv]
    exact ⟨rfl, mapGet_mapDel_self _ _⟩
  · intro hget
    have hv : validateStatusTransition st.active
        ((findAcpToolCallId st.idMap st.active ampId).getD ampId)
        (if isError then Status.failed else Status.completed) = true := by
      unfold validateStatusTransition
      rw [hget]
    rw [processUserChunks_single, if_pos hv, hget]
  · intro tc hget hterm
    rw [processUserChunks_single]
    have hval : validateStatusTransition st.active
        ((findAcpToolCallId st.idMap st.active ampId).getD ampId)
        (if isError then Status.failed else Status.completed)
        = ((if isError then Status.failed else Status.completed) == tc.lastStatus) := by
      unfold validateStatusTransition
      rw [hget]
      show statusTransitionAllowed tc.lastStatus
          (if isError then Status.failed else Status.completed)
        = ((if isError then Status.failed else Status.completed) == tc.lastStatus)
      rcases hterm with h | h <;> rw [h] <;> cases isError <;> rfl
    rw [hval]
    cases heq : ((if isError then Status.failed else Status.completed) == tc.lastStatus) with
    | false =>
      simp only [Bool.false_eq_true, if_false]
      simp only [beq_eq_false_iff_ne, ne_eq] at heq
      simpa using heq
    | true =>
      simp only [if_true]
      simp only [beq_iff_eq] at heq
      simp [heq]

/-- Witness for C1's amended claim: an in-flight `Read` call receives a successful
tool result — the `completed` update is emitted and the call leaves the active set. -/
theorem toolStatusTerminalRedelivery_witness :
    (processUserChunks .flat "sess" [.toolResult "t1" false .absent]
        ⟨[("t1", ⟨"t1", "Read", ToolInput.empty, 5, .inProgress⟩)], [("t1", "t1")],
          some NestedToolTracker.new, [], 9⟩).1
      = [⟨"sess", .toolCallUpdate "t1" (some .completed) []⟩]
    ∧ mapGet ((processUserChunks .flat "sess" [.toolResult "t1" false .absent]
        ⟨[("t1", ⟨"t1", "Read", ToolInput.empty, 5, .inProgress⟩)], [("t1", "t1")],
          some NestedToolTracker.new, [], 9⟩).2).active "t1" = none := by
  have h := (toolStatusTerminalRedelivery "sess" "t1" false .absent
      ⟨[("t1", ⟨"t1", "Read", ToolInput.empty, 5, .inProgress⟩)], [("t1", "t1")],
        some NestedToolTracker.new, [], 9⟩).1
    ⟨⟨"t1", "Read", ToolInput.empty, 5, .inProgress⟩, by decide, rfl⟩
  exact h
